import Mathlib

/-!
Verification of the `dls` IDL tooling (two Rust binaries: the IDL CLI in
`src/main.rs` and the extractor/patcher in `gen/src/main.rs`) against its
natural-language specification.

Source text is modelled as a list of lines, each line a `List Char`;
`str::lines`/`trim`/`find` are translated to the corresponding list scans.
JSON values (`serde_json::Value`) are modelled by an inductive `Json` type.
-/

namespace DLS

/-! ## Program-ID extraction (`gen/src/main.rs`, `extract_program_id`) -/

/-- Errors of `extract_program_id`: the `anyhow!` messages
"Could not find declare_id! in source code" (spec: `MacroNotFound`) and
"Invalid declare_id! format" (spec: `MalformedLiteral`). -/
inductive ExtractError where
  | macroNotFound
  | malformedLiteral
deriving DecidableEq, Repr

/-- The macro token scanned for: `declare_id!`. -/
def declareToken : List Char := "declare_id!".toList

/-- `line.trim().starts_with("declare_id!")`: drop leading whitespace and test
the token as a prefix.  (Rust's `trim` also strips trailing whitespace, but the
token contains no whitespace character, so only the leading strip matters for
`starts_with`.) -/
def matchesDeclare (line : List Char) : Bool :=
  declareToken.isPrefixOf (line.dropWhile Char.isWhitespace)

/-- `line.find('"')` followed by taking the suffix strictly after the first
`"`; `none` when the line has no `"` (Rust: first `.ok_or_else` failure). -/
def afterFirstQuote : List Char → Option (List Char)
  | [] => none
  | c :: rest => if c = '"' then some rest else afterFirstQuote rest

/-- `&line[start..].find('"')` followed by slicing `[start..end]`: the chars
strictly before the next `"`; `none` when no further `"` exists. -/
def upToQuote : List Char → Option (List Char)
  | [] => none
  | c :: rest => if c = '"' then some [] else (upToQuote rest).map (c :: ·)

/-- `extract_program_id` from `gen/src/main.rs`:
scan lines in order for the first whose trimmed content starts with
`declare_id!`; on that line take the substring strictly between the first two
`"` characters. -/
def extract_program_id (lines : List (List Char)) : Except ExtractError String :=
  match lines.find? matchesDeclare with
  | none => .error .macroNotFound
  | some line =>
    match afterFirstQuote line with
    | none => .error .malformedLiteral
    | some rest =>
      match upToQuote rest with
      | none => .error .malformedLiteral
      | some lit => .ok (String.mk lit)

/-- Number of `"` characters on a line. -/
def countQuotes (line : List Char) : Nat :=
  (line.filter (fun c => c = '"')).length

/-! ### Basic lemmas about the quote scans -/

theorem afterFirstQuote_eq_none_iff (l : List Char) :
    afterFirstQuote l = none ↔ '"' ∉ l := by
  induction l with
  | nil => simp [afterFirstQuote]
  | cons c rest ih =>
    by_cases hc : c = '"'
    · simp [afterFirstQuote, hc]
    · simp only [afterFirstQuote, if_neg hc, List.mem_cons, not_or]
      rw [ih]
      exact ⟨fun h => ⟨fun he => hc he.symm, h⟩, fun h => h.2⟩

theorem upToQuote_eq_none_iff (l : List Char) :
    upToQuote l = none ↔ '"' ∉ l := by
  induction l with
  | nil => simp [upToQuote]
  | cons c rest ih =>
    by_cases hc : c = '"'
    · simp [upToQuote, hc]
    · simp only [upToQuote, if_neg hc, Option.map_eq_none', List.mem_cons, not_or]
      rw [ih]
      exact ⟨fun h => ⟨fun he => hc he.symm, h⟩, fun h => h.2⟩

theorem afterFirstQuote_append (a r : List Char) (ha : '"' ∉ a) :
    afterFirstQuote (a ++ '"' :: r) = some r := by
  induction a with
  | nil => simp [afterFirstQuote]
  | cons c rest ih =>
    simp only [List.mem_cons, not_or] at ha
    have hc : ¬ c = '"' := fun h => ha.1 h.symm
    simp [afterFirstQuote, if_neg hc, ih ha.2]

theorem upToQuote_append (x b : List Char) (hx : '"' ∉ x) :
    upToQuote (x ++ '"' :: b) = some x := by
  induction x with
  | nil => simp [upToQuote]
  | cons c rest ih =>
    simp only [List.mem_cons, not_or] at hx
    have hc : ¬ c = '"' := fun h => hx.1 h.symm
    simp [upToQuote, if_neg hc, ih hx.2]

theorem countQuotes_afterFirstQuote (l r : List Char)
    (h : afterFirstQuote l = some r) : countQuotes l = countQuotes r + 1 := by
  induction l generalizing r with
  | nil => simp [afterFirstQuote] at h
  | cons c rest ih =>
    by_cases hc : c = '"'
    · subst hc
      simp [afterFirstQuote] at h
      subst h
      simp [countQuotes, List.filter_cons]
    · simp only [afterFirstQuote, if_neg hc] at h
      have := ih r h
      simpa [countQuotes, List.filter_cons, hc] using this

theorem countQuotes_eq_zero_iff (l : List Char) :
    countQuotes l = 0 ↔ '"' ∉ l := by
  simp only [countQuotes, List.length_eq_zero, List.filter_eq_nil_iff]
  constructor
  · intro h hm
    have := h _ hm
    simp at this
  · intro h c hc hq
    simp only [decide_eq_true_eq] at hq
    exact h (hq ▸ hc)

theorem find?_first (pre post : List (List Char)) (l : List Char)
    (hpre : ∀ p ∈ pre, matchesDeclare p = false)
    (hl : matchesDeclare l = true) :
    (pre ++ l :: post).find? matchesDeclare = some l := by
  induction pre with
  | nil => simp [List.find?_cons_of_pos, hl]
  | cons p rest ih =>
    have hp : matchesDeclare p = false := hpre p (List.mem_cons_self _ _)
    rw [List.cons_append, List.find?_cons_of_neg]
    · exact ih (fun q hq => hpre q (List.mem_cons_of_mem _ hq))
    · simp [hp]

/-- Shared helper: when the first matching line has fewer than two quote
characters, extraction fails with the malformed-literal error. -/
theorem extract_malformed_helper (pre post : List (List Char)) (l : List Char)
    (hpre : ∀ p ∈ pre, matchesDeclare p = false)
    (hl : matchesDeclare l = true) (hq : countQuotes l < 2) :
    extract_program_id (pre ++ l :: post) = .error .malformedLiteral := by
  unfold extract_program_id
  rw [find?_first pre post l hpre hl]
  cases h1 : afterFirstQuote l with
  | none => simp [h1]
  | some r =>
    have hcount := countQuotes_afterFirstQuote l r h1
    have hzero : countQuotes r = 0 := by omega
    have hnr : '"' ∉ r := (countQuotes_eq_zero_iff r).mp hzero
    simp [h1, (upToQuote_eq_none_iff r).mpr hnr]

/-- C1: for every source text whose first line with trimmed content starting
with `declare_id!` carries a first quoted literal `x` (no quote in `x`, no
quote before the opening delimiter), extraction returns exactly `x`,
regardless of the lines before (all non-matching) and after. -/
theorem extract_program_id_first_match
    (pre post : List (List Char)) (a x b : List Char)
    (hpre : ∀ p ∈ pre, matchesDeclare p = false)
    (hline : matchesDeclare (a ++ '"' :: (x ++ '"' :: b)) = true)
    (ha : '"' ∉ a) (hx : '"' ∉ x) :
    extract_program_id (pre ++ (a ++ '"' :: (x ++ '"' :: b)) :: post) =
      .ok (String.mk x) := by
  unfold extract_program_id
  rw [find?_first pre post _ hpre hline]
  simp [afterFirstQuote_append a (x ++ '"' :: b) ha, upToQuote_append x b hx]

/-- Witness for C1 at a concrete source text: a non-matching line followed by
`declare_id!("Prog");`. -/
theorem extract_program_id_first_match_witness :
    extract_program_id
        ([['/', '/']] ++
          ("declare_id!(".toList ++ '"' :: ("Prog".toList ++ '"' :: ");".toList)) :: []) =
      .ok (String.mk "Prog".toList) :=
  extract_program_id_first_match [['/', '/']] [] "declare_id!(".toList "Prog".toList
    ");".toList (by decide) (by decide) (by decide) (by decide)

/-- C4: extraction fails with `macroNotFound` exactly when no line matches the
macro token; it fails with `malformedLiteral` when the first matching line has
fewer than two quote characters; with at least two quotes on the first
matching line it succeeds; and an empty literal between the quotes is accepted
and returned as-is. -/
theorem extract_program_id_errors :
    (∀ lines : List (List Char),
        extract_program_id lines = .error .macroNotFound ↔
          ∀ l ∈ lines, matchesDeclare l = false) ∧
    (∀ (pre post : List (List Char)) (l : List Char),
        (∀ p ∈ pre, matchesDeclare p = false) → matchesDeclare l = true →
        countQuotes l < 2 →
        extract_program_id (pre ++ l :: post) = .error .malformedLiteral) ∧
    (∀ (pre post : List (List Char)) (l : List Char),
        (∀ p ∈ pre, matchesDeclare p = false) → matchesDeclare l = true →
        2 ≤ countQuotes l →
        ∃ s, extract_program_id (pre ++ l :: post) = .ok s) ∧
    extract_program_id ["declare_id!(\"\");".toList] = .ok "" := by
  refine ⟨?_, ?_, ?_, by rfl⟩
  · intro lines
    cases hf : lines.find? matchesDeclare with
    | none =>
      have hres : extract_program_id lines = .error .macroNotFound := by
        unfold extract_program_id
        rw [hf]
      simp only [List.find?_eq_none, Bool.not_eq_true] at hf
      exact iff_of_true hres hf
    | some l =>
      have hl : matchesDeclare l = true := List.find?_some hf
      have hmem : l ∈ lines := List.mem_of_find?_eq_some hf
      constructor
      · intro h
        exfalso
        unfold extract_program_id at h
        rw [hf] at h
        cases h1 : afterFirstQuote l with
        | none => simp [h1] at h
        | some r =>
          cases h2 : upToQuote r with
          | none => simp [h1, h2] at h
          | some lit => simp [h1, h2] at h
      · intro hall
        exact absurd hl (by simp [hall l hmem])
  · intro pre post l hpre hl hq
    exact extract_malformed_helper pre post l hpre hl hq
  · intro pre post l hpre hl hq
    unfold extract_program_id
    rw [find?_first pre post l hpre hl]
    cases h1 : afterFirstQuote l with
    | none =>
      exfalso
      have h0 : countQuotes l = 0 :=
        (countQuotes_eq_zero_iff l).mpr ((afterFirstQuote_eq_none_iff l).mp h1)
      omega
    | some r =>
      have hcount := countQuotes_afterFirstQuote l r h1
      cases h2 : upToQuote r with
      | none =>
        exfalso
        have h0 : countQuotes r = 0 :=
          (countQuotes_eq_zero_iff r).mpr ((upToQuote_eq_none_iff r).mp h2)
        omega
      | some lit => exact ⟨String.mk lit, by simp [h1, h2]⟩

/-- Witness for C4 at a concrete source text: a non-matching line followed by
a matching line with no quote character. -/
theorem extract_program_id_errors_witness :
    extract_program_id ([['x']] ++ "  declare_id!(oops);".toList :: []) =
      .error .malformedLiteral :=
  extract_program_id_errors.2.1 [['x']] [] "  declare_id!(oops);".toList
    (by decide) (by decide) (by decide)

/-- C10: the first matching line is binding — when it has fewer than two
quote characters, extraction fails with the malformed-literal error even when
a later line is a well-formed macro invocation with a properly quoted
literal. -/
theorem extract_program_id_no_fallback
    (pre mid post : List (List Char)) (l a x b : List Char)
    (hpre : ∀ p ∈ pre, matchesDeclare p = false)
    (hl : matchesDeclare l = true) (hq : countQuotes l < 2)
    (_hline2 : matchesDeclare (a ++ '"' :: (x ++ '"' :: b)) = true)
    (_ha : '"' ∉ a) (_hx : '"' ∉ x) :
    extract_program_id
        (pre ++ l :: (mid ++ (a ++ '"' :: (x ++ '"' :: b)) :: post)) =
      .error .malformedLiteral :=
  extract_malformed_helper pre (mid ++ (a ++ '"' :: (x ++ '"' :: b)) :: post) l hpre hl hq

/-- Witness for C10: `declare_id!(BAD);` (no quotes) on the first matching
line, a well-formed `declare_id!("Good");` after it. -/
theorem extract_program_id_no_fallback_witness :
    extract_program_id
        (([] : List (List Char)) ++ "declare_id!(BAD);".toList ::
          (([] : List (List Char)) ++
            ("declare_id!(".toList ++ '"' :: ("Good".toList ++ '"' :: ");".toList)) :: [])) =
      .error .malformedLiteral :=
  extract_program_id_no_fallback [] [] [] "declare_id!(BAD);".toList
    "declare_id!(".toList "Good".toList ");".toList
    (by decide) (by decide) (by decide) (by decide) (by decide) (by decide)

/-! ## Template patching (`gen/src/main.rs`, `main`, steps 1–4) -/

/-- JSON values (`serde_json::Value`).  Modelled from the spec: the crate
manifest selecting the serde_json map representation is not under `src/`; the
spec requires "key order and nesting preserved as they were parsed", so
objects are modelled as entry lists in parsed order, with assignment
overwriting in place.  Numbers are modelled as integers; no claim inspects a
numeric value. -/
inductive Json where
  | null
  | bool (b : Bool)
  | num (n : Int)
  | str (s : String)
  | arr (items : List Json)
  | obj (entries : List (String × Json))
deriving Repr

/-- Errors of the template phase of `gen/src/main.rs::main`:
"Failed to parse template IDL as JSON" (spec: `MalformedTemplate`),
"Program name not found in template IDL" (spec: `MissingProgramName`), and
the panic of serde_json's `IndexMut` on a non-null non-object receiver
(unreachable in this pipeline, see `processTemplate_nonObject`). -/
inductive GenError where
  | malformedTemplate
  | missingProgramName
  | panicked
deriving DecidableEq, Repr

/-- Lookup of a key in an object's entry list (first match). -/
def entriesGet : List (String × Json) → String → Option Json
  | [], _ => none
  | (k', v) :: rest, k => if k' = k then some v else entriesGet rest k

/-- serde_json `Index<&str> for Value`: `value[key]` yields the mapped value
on objects and `Null` otherwise (missing key or non-object receiver). -/
def jsonIndex (j : Json) (key : String) : Json :=
  match j with
  | .obj entries => (entriesGet entries key).getD .null
  | _ => .null

/-- `Value::as_str`. -/
def asStr : Json → Option String
  | .str s => some s
  | _ => none

/-- Insert-or-overwrite of a key in an object's entry list: an existing key
keeps its position, a fresh key is appended. -/
def setKey : List (String × Json) → String → Json → List (String × Json)
  | [], k, v => [(k, v)]
  | (k', v') :: rest, k, v =>
    if k' = k then (k', v) :: rest else (k', v') :: setKey rest k v

/-- serde_json `IndexMut<&str> for Value`: assignment inserts/overwrites on an
object, turns `Null` into a fresh single-entry object, and panics on any
other receiver (modelled as `none`). -/
def indexAssign (j : Json) (key : String) (v : Json) : Option Json :=
  match j with
  | .obj entries => some (.obj (setKey entries key v))
  | .null => some (.obj [(key, v)])
  | _ => none

/-- Removal of every entry with the given key, preserving the order of the
remaining entries (used to state the frame property of the patch). -/
def removeKey : List (String × Json) → String → List (String × Json)
  | [], _ => []
  | (k', v) :: rest, k =>
    if k' = k then removeKey rest k else (k', v) :: removeKey rest k

/-- Whether a value is a JSON object. -/
def Json.isObj : Json → Bool
  | .obj _ => true
  | _ => false

/-- The template phase of `gen/src/main.rs::main`: parse the template
(`parsed = none` models a parse failure), read `idl["name"].as_str()`, then
assign `idl["address"] = Value::String(program_id)`. -/
def processTemplate (parsed : Option Json) (programId : String) :
    Except GenError Json :=
  match parsed with
  | none => .error .malformedTemplate
  | some idl =>
    match asStr (jsonIndex idl "name") with
    | none => .error .missingProgramName
    | some _ =>
      match indexAssign idl "address" (.str programId) with
      | some patched => .ok patched
      | none => .error .panicked

/-! ### Lemmas on entry lists -/

theorem entriesGet_setKey_same (e : List (String × Json)) (k : String) (v : Json) :
    entriesGet (setKey e k v) k = some v := by
  induction e with
  | nil => simp [setKey, entriesGet]
  | cons p rest ih =>
    obtain ⟨k', v'⟩ := p
    by_cases hk : k' = k
    · simp [setKey, entriesGet, hk]
    · simp [setKey, entriesGet, hk, ih]

theorem entriesGet_setKey_ne (e : List (String × Json)) (k k' : String) (v : Json)
    (h : k' ≠ k) : entriesGet (setKey e k v) k' = entriesGet e k' := by
  induction e with
  | nil =>
    have hne : ¬ k = k' := fun he => h he.symm
    simp [setKey, entriesGet, hne]
  | cons p rest ih =>
    obtain ⟨k₀, v₀⟩ := p
    by_cases hk : k₀ = k
    · subst hk
      have hne : ¬ k₀ = k' := fun he => h he.symm
      simp [setKey, entriesGet, hne]
    · simp only [setKey, if_neg hk, entriesGet]
      by_cases hk' : k₀ = k' <;> simp [hk', ih]

theorem removeKey_setKey (e : List (String × Json)) (k : String) (v : Json) :
    removeKey (setKey e k v) k = removeKey e k := by
  induction e with
  | nil => simp [setKey, removeKey]
  | cons p rest ih =>
    obtain ⟨k₀, v₀⟩ := p
    by_cases hk : k₀ = k
    · simp [setKey, removeKey, hk]
    · simp [setKey, removeKey, hk, ih]

theorem setKey_idem (e : List (String × Json)) (k : String) (v : Json) :
    setKey (setKey e k v) k v = setKey e k v := by
  induction e with
  | nil => simp [setKey]
  | cons p rest ih =>
    obtain ⟨k₀, v₀⟩ := p
    by_cases hk : k₀ = k
    · simp [setKey, hk]
    · simp [setKey, hk, ih]

/-- C5: for a template that is a JSON object with a string-valued `name`
field, the patch succeeds, its output is exactly the input with `address`
bound to the identifier, every key other than `address` maps as before, and
the entries other than `address` are preserved in order. -/
theorem templatePatch_frame (entries : List (String × Json)) (nm pid : String)
    (hname : entriesGet entries "name" = some (.str nm)) :
    processTemplate (some (.obj entries)) pid =
      .ok (.obj (setKey entries "address" (.str pid))) ∧
    entriesGet (setKey entries "address" (.str pid)) "address" =
      some (.str pid) ∧
    (∀ k, k ≠ "address" →
      entriesGet (setKey entries "address" (.str pid)) k = entriesGet entries k) ∧
    removeKey (setKey entries "address" (.str pid)) "address" =
      removeKey entries "address" := by
  refine ⟨?_, entriesGet_setKey_same entries _ _,
    fun k hk => entriesGet_setKey_ne entries _ k _ hk,
    removeKey_setKey entries _ _⟩
  simp [processTemplate, jsonIndex, asStr, indexAssign, hname]

/-- Witness for C5 at a concrete template object. -/
theorem templatePatch_frame_witness :
    processTemplate (some (.obj [("name", .str "demo"), ("extra", .num 5)])) "Prog1" =
      .ok (.obj (setKey [("name", .str "demo"), ("extra", .num 5)] "address"
        (.str "Prog1"))) :=
  (templatePatch_frame [("name", .str "demo"), ("extra", .num 5)] "demo" "Prog1" rfl).1

/-- C6 counterexample: the empty JSON array is valid JSON and not an object,
yet the patch pipeline rejects it with the missing-program-name error, not the
malformed-template error. -/
theorem processTemplate_array_counterexample :
    processTemplate (some (.arr [])) "Prog1" = .error .missingProgramName ∧
    processTemplate (some (.arr [])) "Prog1" ≠ .error .malformedTemplate := by
  refine ⟨rfl, fun h => ?_⟩
  simp [processTemplate, jsonIndex, asStr] at h

/-- C6 amended: for every template that parses as valid JSON but is not a
JSON object, the patch pipeline fails with the missing-program-name error
(non-objects index to `Null`, so the `name` lookup fails first); the
malformed-template error is reserved for inputs that fail to parse. -/
theorem processTemplate_nonObject (j : Json) (pid : String)
    (h : j.isObj = false) :
    processTemplate (some j) pid = .error .missingProgramName := by
  cases j with
  | obj entries => simp [Json.isObj] at h
  | null => rfl
  | bool b => rfl
  | num n => rfl
  | str s => rfl
  | arr items => rfl

/-- Witness for the amended C6 at a concrete non-object template. -/
theorem processTemplate_nonObject_witness :
    processTemplate (some (.str "not an object")) "Prog1" =
      .error .missingProgramName :=
  processTemplate_nonObject (.str "not an object") "Prog1" rfl

/-- C7: the template patch is idempotent — if patching once succeeds with
output `j₂`, patching `j₂` with the same identifier succeeds and returns `j₂`
unchanged. -/
theorem processTemplate_idempotent (j j₂ : Json) (pid : String)
    (h : processTemplate (some j) pid = .ok j₂) :
    processTemplate (some j₂) pid = .ok j₂ := by
  cases j with
  | obj entries =>
    cases hn : entriesGet entries "name" with
    | none => simp [processTemplate, jsonIndex, asStr, hn] at h
    | some v =>
      cases v with
      | str s =>
        have hj₂ : j₂ = .obj (setKey entries "address" (.str pid)) := by
          simp [processTemplate, jsonIndex, asStr, hn, indexAssign] at h
          exact h.symm
        subst hj₂
        have hname₂ :
            entriesGet (setKey entries "address" (.str pid)) "name" =
              some (.str s) := by
          rw [entriesGet_setKey_ne entries _ _ _ (by decide)]
          exact hn
        simp [processTemplate, jsonIndex, asStr, hname₂, indexAssign,
          setKey_idem]
      | null => simp [processTemplate, jsonIndex, asStr, hn] at h
      | bool b => simp [processTemplate, jsonIndex, asStr, hn] at h
      | num n => simp [processTemplate, jsonIndex, asStr, hn] at h
      | arr items => simp [processTemplate, jsonIndex, asStr, hn] at h
      | obj es => simp [processTemplate, jsonIndex, asStr, hn] at h
  | null => simp [processTemplate, jsonIndex, asStr] at h
  | bool b => simp [processTemplate, jsonIndex, asStr] at h
  | num n => simp [processTemplate, jsonIndex, asStr] at h
  | str s => simp [processTemplate, jsonIndex, asStr] at h
  | arr items => simp [processTemplate, jsonIndex, asStr] at h

/-- Witness for C7: patching the already-patched concrete template again
leaves it unchanged. -/
theorem processTemplate_idempotent_witness :
    processTemplate
        (some (.obj [("name", .str "demo"), ("address", .str "Prog1")])) "Prog1" =
      .ok (.obj [("name", .str "demo"), ("address", .str "Prog1")]) :=
  processTemplate_idempotent (.obj [("name", .str "demo")])
    (.obj [("name", .str "demo"), ("address", .str "Prog1")]) "Prog1" rfl

/-! ## The IDL document model (`anchor_lang_idl::types`, as consumed by
`src/main.rs`) -/

/-- Array length: a literal size or a named generic parameter
(`IdlArrayLen::Value` / `IdlArrayLen::Generic`). -/
inductive IdlArrayLen where
  | value (size : Nat)
  | generic (name : String)
deriving Repr

mutual
/-- `IdlType`: the closed variant set matched by `format_type`.  The Rust
enum is `non_exhaustive`; the formatter's wildcard arm for future variants is
unreachable over this variant set and is therefore not part of the model. -/
inductive IdlType where
  | bool
  | u8
  | i8
  | u16
  | i16
  | u32
  | i32
  | f32
  | u64
  | i64
  | f64
  | u128
  | i128
  | u256
  | i256
  | bytes
  | string
  | pubkey
  | option (inner : IdlType)
  | vec (inner : IdlType)
  | array (inner : IdlType) (len : IdlArrayLen)
  | defined (name : String) (generics : List IdlGenericArg)
  | generic (name : String)

/-- `IdlGenericArg`: a generic argument of a defined type — a type or a
constant value rendered verbatim. -/
inductive IdlGenericArg where
  | type (ty : IdlType)
  | const (value : String)
end

mutual
/-- `format_type` from `src/main.rs`: render an `IdlType` to its display
string, recursively. -/
def format_type : IdlType → String
  | .bool => "bool"
  | .u8 => "u8"
  | .i8 => "i8"
  | .u16 => "u16"
  | .i16 => "i16"
  | .u32 => "u32"
  | .i32 => "i32"
  | .f32 => "f32"
  | .u64 => "u64"
  | .i64 => "i64"
  | .f64 => "f64"
  | .u128 => "u128"
  | .i128 => "i128"
  | .u256 => "u256"
  | .i256 => "i256"
  | .bytes => "bytes"
  | .string => "string"
  | .pubkey => "pubkey"
  | .option inner => "Option<" ++ format_type inner ++ ">"
  | .vec inner => "Vec<" ++ format_type inner ++ ">"
  | .array inner len =>
    match len with
    | .value size => "[" ++ format_type inner ++ "; " ++ toString size ++ "]"
    | .generic name => "[" ++ format_type inner ++ "; " ++ name ++ "]"
  | .defined name generics =>
    if generics.isEmpty then name
    else name ++ "<" ++ String.intercalate ", " (formatGenericList generics) ++ ">"
  | .generic name => name

/-- The `generics.iter().map(...)` of `format_type`'s `Defined` arm. -/
def formatGenericList : List IdlGenericArg → List String
  | [] => []
  | g :: rest => formatGenericArg g :: formatGenericList rest

/-- One generic argument: a type recurses, a constant renders verbatim. -/
def formatGenericArg : IdlGenericArg → String
  | .type ty => format_type ty
  | .const value => value
end

/-- C3: the type formatter is deterministic and recursive — the named scalars
map to their short names, `Option`/`Vec` wrap the recursive rendering in
`Option<…>`/`Vec<…>`, and the three structured examples render as the spec
states. -/
theorem format_type_spec :
    format_type .bool = "bool" ∧
    format_type .u8 = "u8" ∧
    format_type .pubkey = "pubkey" ∧
    format_type .bytes = "bytes" ∧
    format_type .string = "string" ∧
    (∀ t, format_type (.option t) = "Option<" ++ format_type t ++ ">") ∧
    (∀ t, format_type (.vec t) = "Vec<" ++ format_type t ++ ">") ∧
    format_type (.array .u8 (.value 32)) = "[u8; 32]" ∧
    format_type (.defined "Foo" [.type .u64]) = "Foo<u64>" ∧
    format_type (.option (.vec .pubkey)) = "Option<Vec<pubkey>>" := by
  refine ⟨rfl, rfl, rfl, rfl, rfl, ?_, ?_, by rfl, by rfl, by rfl⟩
  · intro t
    simp [format_type]
  · intro t
    simp [format_type]

/-- `IdlMetadata`: the two fields consumed by the CLI. -/
structure IdlMetadata where
  name : String
  version : String
deriving Repr

/-- An account declaration of the document (`Idl.accounts` element): the
validator consumes its name and discriminator. -/
structure IdlAccountDef where
  name : String
  discriminator : List Nat
deriving Repr

/-- An event declaration of the document (`Idl.events` element). -/
structure IdlEventDef where
  name : String
  discriminator : List Nat
deriving Repr

/-- A PDA seed descriptor; only the seed count is consumed by the renderer. -/
inductive IdlSeed where
  | const (value : List Nat)
  | arg (path : String)
  | account (path : String)
deriving Repr

/-- A PDA descriptor carried by a single account. -/
structure IdlPda where
  seeds : List IdlSeed
deriving Repr

/-- A leaf account of an instruction (`IdlInstructionAccount`). -/
structure IdlInstructionAccount where
  name : String
  writable : Bool
  signer : Bool
  optional : Bool
  pda : Option IdlPda
deriving Repr

/-- `IdlInstructionAccountItem`: a leaf account or a named composite group
(the Rust `Composite` arm carries an `IdlInstructionAccounts {name, accounts}`
record, inlined here as the two fields). -/
inductive IdlInstructionAccountItem where
  | single (acc : IdlInstructionAccount)
  | composite (name : String) (accounts : List IdlInstructionAccountItem)
deriving Repr

/-- An instruction argument (`IdlField`). -/
structure IdlField where
  name : String
  docs : List String
  ty : IdlType

/-- `IdlInstruction`. -/
structure IdlInstruction where
  name : String
  docs : List String
  discriminator : List Nat
  accounts : List IdlInstructionAccountItem
  args : List IdlField
  returns : Option IdlType

/-- `Idl`: the document shape consumed by the validator and the reporter.
`types` entries are consumed only as a count (summary logging), so only their
names are modelled. -/
structure Idl where
  address : String
  metadata : IdlMetadata
  instructions : List IdlInstruction
  accounts : List IdlAccountDef
  events : List IdlEventDef
  types : List String

/-! ## The validator (`src/main.rs`, `validate_idl`) -/

/-- Which collection an empty discriminator was found in. -/
inductive DiscKind where
  | account
  | instruction
  | event
deriving DecidableEq, Repr

/-- Errors of `validate_idl`, in the order the checks fire: the `anyhow!`
messages "IDL is missing program address/name/version" and
"… has an empty discriminator" (which names the offending item). -/
inductive ValidateError where
  | missingAddress
  | missingName
  | missingVersion
  | emptyDiscriminator (kind : DiscKind) (name : String)
deriving DecidableEq, Repr

/-- The `for account in &idl.accounts` loop: name of the first account with
an empty discriminator. -/
def firstEmptyAccountDisc : List IdlAccountDef → Option String
  | [] => none
  | a :: rest =>
    if a.discriminator.isEmpty then some a.name else firstEmptyAccountDisc rest

/-- The `for instruction in &idl.instructions` loop. -/
def firstEmptyInstructionDisc : List IdlInstruction → Option String
  | [] => none
  | i :: rest =>
    if i.discriminator.isEmpty then some i.name else firstEmptyInstructionDisc rest

/-- The `for event in &idl.events` loop. -/
def firstEmptyEventDisc : List IdlEventDef → Option String
  | [] => none
  | e :: rest =>
    if e.discriminator.isEmpty then some e.name else firstEmptyEventDisc rest

/-- `validate_idl` from `src/main.rs` (the post-parse checks): address, then
metadata.name, then metadata.version, then account/instruction/event
discriminators, each loop in document order, first failure wins. -/
def validate_idl (idl : Idl) : Except ValidateError Unit :=
  if idl.address.isEmpty then .error .missingAddress
  else if idl.metadata.name.isEmpty then .error .missingName
  else if idl.metadata.version.isEmpty then .error .missingVersion
  else
    match firstEmptyAccountDisc idl.accounts with
    | some n => .error (.emptyDiscriminator .account n)
    | none =>
      match firstEmptyInstructionDisc idl.instructions with
      | some n => .error (.emptyDiscriminator .instruction n)
      | none =>
        match firstEmptyEventDisc idl.events with
        | some n => .error (.emptyDiscriminator .event n)
        | none => .ok ()

theorem firstEmptyAccountDisc_eq_find? (l : List IdlAccountDef) :
    firstEmptyAccountDisc l =
      (l.find? (fun a => a.discriminator.isEmpty)).map (·.name) := by
  induction l with
  | nil => rfl
  | cons a rest ih =>
    by_cases h : a.discriminator.isEmpty = true
    · simp [firstEmptyAccountDisc, h, List.find?_cons_of_pos _ h]
    · simp only [firstEmptyAccountDisc, if_neg h]
      rw [List.find?_cons_of_neg]
      · exact ih
      · simpa using h

theorem firstEmptyInstructionDisc_eq_find? (l : List IdlInstruction) :
    firstEmptyInstructionDisc l =
      (l.find? (fun i => i.discriminator.isEmpty)).map (·.name) := by
  induction l with
  | nil => rfl
  | cons i rest ih =>
    by_cases h : i.discriminator.isEmpty = true
    · simp [firstEmptyInstructionDisc, h, List.find?_cons_of_pos _ h]
    · simp only [firstEmptyInstructionDisc, if_neg h]
      rw [List.find?_cons_of_neg]
      · exact ih
      · simpa using h

theorem firstEmptyEventDisc_eq_find? (l : List IdlEventDef) :
    firstEmptyEventDisc l =
      (l.find? (fun e => e.discriminator.isEmpty)).map (·.name) := by
  induction l with
  | nil => rfl
  | cons e rest ih =>
    by_cases h : e.discriminator.isEmpty = true
    · simp [firstEmptyEventDisc, h, List.find?_cons_of_pos _ h]
    · simp only [firstEmptyEventDisc, if_neg h]
      rw [List.find?_cons_of_neg]
      · exact ih
      · simpa using h

theorem string_isEmpty_empty : "".isEmpty = true := rfl

theorem string_isEmpty_false {s : String} (h : s ≠ "") : s.isEmpty = false := by
  cases he : s.isEmpty
  · rfl
  · exact absurd ((String.isEmpty_iff s).mp he) h

/-- C2: the validator's checks fire in the fixed order address, name,
version, account discriminators, instruction discriminators, event
discriminators; the first failure determines the error (in particular an
empty address wins over an empty name), each discriminator loop reports the
first offender in document order by name, and with no failure the validator
succeeds. -/
theorem validate_idl_order (idl : Idl) :
    (idl.address = "" → validate_idl idl = .error .missingAddress) ∧
    (idl.address ≠ "" → idl.metadata.name = "" →
      validate_idl idl = .error .missingName) ∧
    (idl.address ≠ "" → idl.metadata.name ≠ "" → idl.metadata.version = "" →
      validate_idl idl = .error .missingVersion) ∧
    (idl.address ≠ "" → idl.metadata.name ≠ "" → idl.metadata.version ≠ "" →
      ∀ a, idl.accounts.find? (fun a => a.discriminator.isEmpty) = some a →
        validate_idl idl = .error (.emptyDiscriminator .account a.name)) ∧
    (idl.address ≠ "" → idl.metadata.name ≠ "" → idl.metadata.version ≠ "" →
      idl.accounts.find? (fun a => a.discriminator.isEmpty) = none →
      ∀ i, idl.instructions.find? (fun i => i.discriminator.isEmpty) = some i →
        validate_idl idl = .error (.emptyDiscriminator .instruction i.name)) ∧
    (idl.address ≠ "" → idl.metadata.name ≠ "" → idl.metadata.version ≠ "" →
      idl.accounts.find? (fun a => a.discriminator.isEmpty) = none →
      idl.instructions.find? (fun i => i.discriminator.isEmpty) = none →
      ∀ e, idl.events.find? (fun e => e.discriminator.isEmpty) = some e →
        validate_idl idl = .error (.emptyDiscriminator .event e.name)) ∧
    (idl.address ≠ "" → idl.metadata.name ≠ "" → idl.metadata.version ≠ "" →
      idl.accounts.find? (fun a => a.discriminator.isEmpty) = none →
      idl.instructions.find? (fun i => i.discriminator.isEmpty) = none →
      idl.events.find? (fun e => e.discriminator.isEmpty) = none →
      validate_idl idl = .ok ()) := by
  refine ⟨?_, ?_, ?_, ?_, ?_, ?_, ?_⟩
  · intro h
    simp [validate_idl, h, string_isEmpty_empty]
  · intro h1 h2
    simp [validate_idl, string_isEmpty_false h1, h2, string_isEmpty_empty]
  · intro h1 h2 h3
    simp [validate_idl, string_isEmpty_false h1, string_isEmpty_false h2, h3,
      string_isEmpty_empty]
  · intro h1 h2 h3 a ha
    simp [validate_idl, string_isEmpty_false h1, string_isEmpty_false h2,
      string_isEmpty_false h3, firstEmptyAccountDisc_eq_find?, ha]
  · intro h1 h2 h3 hacc i hi
    simp [validate_idl, string_isEmpty_false h1, string_isEmpty_false h2,
      string_isEmpty_false h3, firstEmptyAccountDisc_eq_find?, hacc,
      firstEmptyInstructionDisc_eq_find?, hi]
  · intro h1 h2 h3 hacc hins e he
    simp [validate_idl, string_isEmpty_false h1, string_isEmpty_false h2,
      string_isEmpty_false h3, firstEmptyAccountDisc_eq_find?, hacc,
      firstEmptyInstructionDisc_eq_find?, hins, firstEmptyEventDisc_eq_find?, he]
  · intro h1 h2 h3 hacc hins hev
    simp [validate_idl, string_isEmpty_false h1, string_isEmpty_false h2,
      string_isEmpty_false h3, firstEmptyAccountDisc_eq_find?, hacc,
      firstEmptyInstructionDisc_eq_find?, hins, firstEmptyEventDisc_eq_find?, hev]

/-- Witness for C2: a document with both an empty address and an empty name
is rejected with the missing-address error. -/
theorem validate_idl_order_witness :
    validate_idl
        { address := "", metadata := { name := "", version := "0.1.0" },
          instructions := [], accounts := [], events := [], types := [] } =
      .error .missingAddress :=
  (validate_idl_order
    { address := "", metadata := { name := "", version := "0.1.0" },
      instructions := [], accounts := [], events := [], types := [] }).1 rfl

/-! ## The account tree renderer (`src/main.rs`, `display_accounts`) -/

/-- Rust `str::repeat`: the string repeated `n` times. -/
def repeatStr (s : String) (n : Nat) : String :=
  String.join (List.replicate n s)

/-- The `attrs` vector of `display_accounts`: `writable`, `signer`,
`optional`, pushed in that fixed order, each only when set. -/
def accountAttrs (acc : IdlInstructionAccount) : List String :=
  (if acc.writable then ["writable"] else []) ++
  (if acc.signer then ["signer"] else []) ++
  (if acc.optional then ["optional"] else [])

/-- `display_accounts` from `src/main.rs`, one output line per `println!`:
a `Single` renders `indent ++ name ++ attr_str` (attr list parenthesized and
comma-joined, omitted when empty) and a subordinate seed-count line when a
PDA descriptor is present; a `Composite` renders `indent ++ name ++ ":"` and
recurses one level deeper; `indent = "  ".repeat(depth + 2)`. -/
def display_accounts : List IdlInstructionAccountItem → Nat → List String
  | [], _ => []
  | .single acc :: rest, depth =>
    let indent := repeatStr "  " (depth + 2)
    let attrs := accountAttrs acc
    let attr_str :=
      if attrs.isEmpty then "" else " (" ++ String.intercalate ", " attrs ++ ")"
    (indent ++ acc.name ++ attr_str) ::
      ((match acc.pda with
        | some pda =>
          [indent ++ "  PDA with " ++ toString pda.seeds.length ++ " seeds"]
        | none => []) ++ display_accounts rest depth)
  | .composite nm accs :: rest, depth =>
    let indent := repeatStr "  " (depth + 2)
    (indent ++ nm ++ ":") ::
      (display_accounts accs (depth + 1) ++ display_accounts rest depth)

/-- C8: the renderer appends item renderings in authored order; a `Single`
renders its name with exactly its set attributes among writable, signer,
optional in that fixed order (parenthesized list omitted when none is set)
plus a seed-count line when a PDA descriptor is present; a `Composite`
renders its name with a colon and its children exactly one indentation level
deeper; the spec's composite example renders at two indentation levels. -/
theorem display_accounts_spec :
    (∀ xs ys d, display_accounts (xs ++ ys) d =
      display_accounts xs d ++ display_accounts ys d) ∧
    (∀ n d, display_accounts [.single ⟨n, false, false, false, none⟩] d =
      [repeatStr "  " (d + 2) ++ n]) ∧
    (∀ n d, display_accounts [.single ⟨n, true, true, true, none⟩] d =
      [repeatStr "  " (d + 2) ++ n ++ " (writable, signer, optional)"]) ∧
    (∀ n d, display_accounts [.single ⟨n, true, false, true, none⟩] d =
      [repeatStr "  " (d + 2) ++ n ++ " (writable, optional)"]) ∧
    (∀ n d, display_accounts [.single ⟨n, false, true, false, none⟩] d =
      [repeatStr "  " (d + 2) ++ n ++ " (signer)"]) ∧
    (∀ n w s o seeds d,
      display_accounts [.single ⟨n, w, s, o, some ⟨seeds⟩⟩] d =
        display_accounts [.single ⟨n, w, s, o, none⟩] d ++
          [repeatStr "  " (d + 2) ++ "  PDA with " ++
            toString seeds.length ++ " seeds"]) ∧
    (∀ nm accs rest d, display_accounts (.composite nm accs :: rest) d =
      (repeatStr "  " (d + 2) ++ nm ++ ":") ::
        (display_accounts accs (d + 1) ++ display_accounts rest d)) ∧
    display_accounts
        [.composite "authority_group"
          [.single ⟨"payer", true, true, false, none⟩,
           .single ⟨"vault", true, false, false, none⟩]] 1 =
      ["      authority_group:",
       "        payer (writable, signer)",
       "        vault (writable)"] := by
  refine ⟨?_, ?_, ?_, ?_, ?_, ?_, ?_, ?_⟩
  · intro xs ys d
    induction xs with
    | nil => simp [display_accounts]
    | cons item rest ih =>
      cases item with
      | single acc => simp [display_accounts, ih]
      | composite nm accs => simp [display_accounts, ih]
  · intro n d
    simp [display_accounts, accountAttrs]
  · intro n d
    have h : " (" ++ String.intercalate ", " ["writable", "signer", "optional"] ++ ")" =
        " (writable, signer, optional)" := rfl
    simp [display_accounts, accountAttrs, h]
  · intro n d
    have h : " (" ++ String.intercalate ", " ["writable", "optional"] ++ ")" =
        " (writable, optional)" := rfl
    simp [display_accounts, accountAttrs, h]
  · intro n d
    have h : " (" ++ String.intercalate ", " ["signer"] ++ ")" =
        " (signer)" := rfl
    simp [display_accounts, accountAttrs, h]
  · intro n w s o seeds d
    have hattrs : accountAttrs ⟨n, w, s, o, some ⟨seeds⟩⟩ =
        accountAttrs ⟨n, w, s, o, none⟩ := rfl
    simp [display_accounts, hattrs]
  · intro nm accs rest d
    simp [display_accounts]
  · have h1 : " (" ++ String.intercalate ", " ["writable", "signer"] ++ ")" =
        " (writable, signer)" := rfl
    have h2 : " (" ++ String.intercalate ", " ["writable"] ++ ")" =
        " (writable)" := rfl
    have h3 : repeatStr "  " 3 = "      " := rfl
    have h4 : repeatStr "  " 4 = "        " := rfl
    simp [display_accounts, accountAttrs, h1, h2, h3, h4]

/-! ## The instruction reporter (`src/main.rs`, `display_instructions`) -/

/-- One numbered instruction block of `display_instructions` (`idx` is the
0-based enumeration index): the name line always; documentation, the argument
list (with a `None` sentinel when empty), the account tree (with a `None`
sentinel when empty) and the return type only when `names_only` is unset. -/
def instructionBlock (idx : Nat) (ins : IdlInstruction) (names_only : Bool) :
    List String :=
  ("\n" ++ toString (idx + 1) ++ ". " ++ ins.name) ::
    (if names_only then [] else
      (if ins.docs.isEmpty then [] else
        "   Description:" :: ins.docs.map (fun doc => "     " ++ doc)) ++
      (if ins.args.isEmpty then ["   Arguments: None"] else
        "   Arguments:" :: ins.args.flatMap (fun arg =>
          ("     " ++ arg.name ++ " (" ++ format_type arg.ty ++ ")") ::
            (if arg.docs.isEmpty then [] else
              ["       " ++ String.intercalate " " arg.docs]))) ++
      ("   Accounts:" ::
        (if ins.accounts.isEmpty then ["     None"]
         else display_accounts ins.accounts 1)) ++
      (match ins.returns with
       | some t => ["   Returns: " ++ format_type t]
       | none => []))

/-- `display_instructions` from `src/main.rs` (the rendering after the parse):
three header lines, then the enumerated instruction blocks in document
order. -/
def display_instructions (idl : Idl) (names_only : Bool) : List String :=
  ("\nProgram: " ++ idl.metadata.name ++ " (v" ++ idl.metadata.version ++ ")") ::
  ("Address: " ++ idl.address) ::
  ("\nInstructions (" ++ toString idl.instructions.length ++ "):") ::
  (idl.instructions.enum.flatMap fun p => instructionBlock p.1 p.2 names_only)

theorem flatMap_singleton {α β : Type} (l : List α) (f : α → β) :
    (l.flatMap fun x => [f x]) = l.map f := by
  induction l <;> simp_all

/-- C9: with names-only set the report is exactly the three header lines plus
one numbered name line per instruction in document order; with the flag unset
each block carries its documentation lines, its argument lines (or the
`Arguments: None` sentinel), its account tree (or the `None` sentinel), and
its formatted return type when present. -/
theorem display_instructions_spec :
    (∀ idl, display_instructions idl true =
      ("\nProgram: " ++ idl.metadata.name ++ " (v" ++ idl.metadata.version ++ ")") ::
      ("Address: " ++ idl.address) ::
      ("\nInstructions (" ++ toString idl.instructions.length ++ "):") ::
      (idl.instructions.enum.map fun p =>
        "\n" ++ toString (p.1 + 1) ++ ". " ++ p.2.name)) ∧
    (∀ idx ins, instructionBlock idx ins true =
      ["\n" ++ toString (idx + 1) ++ ". " ++ ins.name]) ∧
    (∀ idx ins, ∀ doc ∈ ins.docs,
      ("     " ++ doc) ∈ instructionBlock idx ins false) ∧
    (∀ idx ins, ins.args = [] →
      "   Arguments: None" ∈ instructionBlock idx ins false) ∧
    (∀ idx ins, ∀ arg ∈ ins.args,
      ("     " ++ arg.name ++ " (" ++ format_type arg.ty ++ ")") ∈
        instructionBlock idx ins false) ∧
    (∀ idx ins, ins.accounts = [] →
      "     None" ∈ instructionBlock idx ins false) ∧
    (∀ idx ins, ins.accounts ≠ [] →
      ∀ l ∈ display_accounts ins.accounts 1,
        l ∈ instructionBlock idx ins false) ∧
    (∀ idx ins t, ins.returns = some t →
      ("   Returns: " ++ format_type t) ∈ instructionBlock idx ins false) := by
  have hblock : ∀ idx (ins : IdlInstruction), instructionBlock idx ins true =
      ["\n" ++ toString (idx + 1) ++ ". " ++ ins.name] := by
    intro idx ins
    simp [instructionBlock]
  refine ⟨?_, hblock, ?_, ?_, ?_, ?_, ?_, ?_⟩
  · intro idl
    simp only [display_instructions, hblock]
    rw [flatMap_singleton]
  · intro idx ins doc hdoc
    have hne : ins.docs.isEmpty = false := by
      cases hd : ins.docs with
      | nil => rw [hd] at hdoc; cases hdoc
      | cons a l => rfl
    have hx : ("     " ++ doc) ∈
        (if ins.docs.isEmpty then [] else
          "   Description:" :: ins.docs.map (fun d => "     " ++ d)) := by
      rw [hne]
      exact List.mem_cons_of_mem _ (List.mem_map_of_mem _ hdoc)
    exact List.mem_cons_of_mem _
      (List.mem_append_left _ (List.mem_append_left _ (List.mem_append_left _ hx)))
  · intro idx ins hargs
    simp [instructionBlock, hargs]
  · intro idx ins arg harg
    have hne : ins.args.isEmpty = false := by
      cases ha : ins.args with
      | nil => rw [ha] at harg; cases harg
      | cons a l => rfl
    have hx : ("     " ++ arg.name ++ " (" ++ format_type arg.ty ++ ")") ∈
        (if ins.args.isEmpty then ["   Arguments: None"] else
          "   Arguments:" :: ins.args.flatMap (fun arg =>
            ("     " ++ arg.name ++ " (" ++ format_type arg.ty ++ ")") ::
              (if arg.docs.isEmpty then [] else
                ["       " ++ String.intercalate " " arg.docs]))) := by
      rw [hne]
      exact List.mem_cons_of_mem _
        (List.mem_flatMap.mpr ⟨arg, harg, List.mem_cons_self _ _⟩)
    exact List.mem_cons_of_mem _
      (List.mem_append_left _ (List.mem_append_left _ (List.mem_append_right _ hx)))
  · intro idx ins haccs
    simp [instructionBlock, haccs]
  · intro idx ins haccs l hl
    have hne : ins.accounts.isEmpty = false := by
      cases ha : ins.accounts with
      | nil => exact absurd ha haccs
      | cons a rest => rfl
    have hx : l ∈ ("   Accounts:" ::
        (if ins.accounts.isEmpty then ["     None"]
         else display_accounts ins.accounts 1)) := by
      rw [hne]
      exact List.mem_cons_of_mem _ hl
    exact List.mem_cons_of_mem _
      (List.mem_append_left _ (List.mem_append_right _ hx))
  · intro idx ins t hret
    simp [instructionBlock, hret]

/-- Witness for C9 at a concrete instruction with no arguments: its
non-names-only block carries the `Arguments: None` sentinel. -/
theorem display_instructions_spec_witness :
    "   Arguments: None" ∈
      instructionBlock 0
        { name := "init", docs := [], discriminator := [1], accounts := [],
          args := [], returns := none } false :=
  display_instructions_spec.2.2.2.1 0
    { name := "init", docs := [], discriminator := [1], accounts := [],
      args := [], returns := none } rfl

end DLS
